import Mathlib

/-!
A verification development for the SEPTA bid-scraper (`septaScraper.js` and
`encryption.js`).  The JavaScript source is shallowly embedded: pure string
processing becomes Lean functions over `List Char` / `String`, JavaScript
`Date` values become explicit `(year, month, day)` triples with ECMAScript's
argument-normalisation rules, regular-expression extraction is embedded as
bespoke deterministic scanners matching the exact semantics of the concrete
patterns in the source (including the semantics of `String.prototype.match`
with the global flag, which returns full-match strings only, without capture
groups), and the browser-driving portions become functions over an explicit
environment describing what each awaited browser operation would return,
with JavaScript exceptions modelled by `Except String`.
-/

/-! ## Character classes (ASCII fragment of the JS regex classes used) -/

/-- JS `\s` restricted to ASCII: space, tab, LF, VT, FF, CR.  The source
strings involved are ASCII, so the Unicode spaces of full `\s` never arise. -/
def isWsCh (c : Char) : Bool :=
  c = ' ' || c = '\t' || c = '\n' || c = '\r' || c.toNat = 11 || c.toNat = 12

/-- JS `[\/\-]`, the date separators. -/
def isSepCh (c : Char) : Bool := c = '/' || c = '-'

/-- JS `[a-zA-Z0-9\-]` from the external-id patterns. -/
def isAlnumDashCh (c : Char) : Bool :=
  (('a' ≤ c && c ≤ 'z') || ('A' ≤ c && c ≤ 'Z') || c.isDigit || c = '-')

/-- JS `[\d,]` from the amount patterns. -/
def isDigCommaCh (c : Char) : Bool := c.isDigit || c = ','

/-- JS `[\s#:]` from the external-id patterns. -/
def isIdSepCh (c : Char) : Bool := isWsCh c || c = '#' || c = ':'

/-- JS `[\s:]` from the quantity patterns. -/
def isQtySepCh (c : Char) : Bool := isWsCh c || c = ':'

/-- ASCII lower-casing, the fragment of JS `toLowerCase()` exercised here. -/
def lowerCh (c : Char) : Char :=
  if 'A' ≤ c && c ≤ 'Z' then Char.ofNat (c.toNat + 32) else c

def lowerList (cs : List Char) : List Char := cs.map lowerCh

/-- Length of the maximal prefix of `cs` whose characters satisfy `p`. -/
def runLen (p : Char → Bool) : List Char → Nat
  | [] => 0
  | c :: rest => if p c then runLen p rest + 1 else 0

/-- `needle` is a prefix of `hay` (character-exact). -/
def hasPrefixCh : List Char → List Char → Bool
  | [], _ => true
  | _ :: _, [] => false
  | n :: ns, h :: hs => n = h && hasPrefixCh ns hs

/-- `needle` is a prefix of `hay` up to ASCII case. -/
def hasPrefixCI (needle hay : List Char) : Bool :=
  hasPrefixCh (lowerList needle) (lowerList hay)

/-- `needle` occurs as a contiguous substring of `hay`. -/
def containsSub (needle : List Char) : List Char → Bool
  | [] => hasPrefixCh needle []
  | c :: rest => hasPrefixCh needle (c :: rest) || containsSub needle rest

/-- Does the string contain the character `c` (JS `String.prototype.includes`
with a one-character needle)? -/
def containsCharStr (s : String) (c : Char) : Bool := s.data.contains c

/-- Digits of a decimal numeral to a `Nat` (JS `parseInt` on an all-digit
string). -/
def toNatDigits (cs : List Char) : Nat :=
  cs.foldl (fun acc c => acc * 10 + (c.toNat - 48)) 0

/-- JS `String.prototype.trim` on the ASCII fragment. -/
def trimChars (cs : List Char) : List Char :=
  ((cs.dropWhile isWsCh).reverse.dropWhile isWsCh).reverse

def jsTrimStr (s : String) : String := String.mk (trimChars s.data)

/-- JS `split(/\s+/)` on an already-trimmed string: the maximal non-whitespace
tokens, in order. -/
def splitWsAux : List Char → List Char → List String
  | [], acc => if acc.isEmpty then [] else [String.mk acc.reverse]
  | c :: rest, acc =>
    if isWsCh c then
      if acc.isEmpty then splitWsAux rest []
      else String.mk acc.reverse :: splitWsAux rest []
    else splitWsAux rest (c :: acc)

def splitWsStr (s : String) : List String := splitWsAux s.data []

/-- JS `replace(/\s+/g, ' ')`: collapse every whitespace run to one space. -/
def collapseWsAux : List Char → List Char
  | [] => []
  | c :: rest =>
    if isWsCh c then
      match rest with
      | [] => [' ']
      | d :: _ => if isWsCh d then collapseWsAux rest else ' ' :: collapseWsAux rest
    else c :: collapseWsAux rest

/-- JS `text.replace(/\s+/g, ' ').trim()`, the description normaliser. -/
def collapseWs (s : String) : String := String.mk (trimChars (collapseWsAux s.data))

/-! ## The JS `Date` model -/

/-- A JavaScript `Date` at day granularity: the civil calendar date the
`Date` value denotes.  All dates built by the scraper are midnight values,
so comparing day numbers agrees with comparing the underlying millisecond
timestamps. -/
structure JSDate where
  year : Int
  month : Int
  day : Int
deriving DecidableEq, Repr

/-- Days since 1970-01-01 of a civil date (proleptic Gregorian; month must be
in 1..12 — callers normalise first).  Howard Hinnant's `days_from_civil`. -/
def daysFromCivil (y m d : Int) : Int :=
  let y' := if m ≤ 2 then y - 1 else y
  let era := y'.fdiv 400
  let yoe := y' - era * 400
  let doy := (153 * (if 2 < m then m - 3 else m + 9) + 2).fdiv 5 + d - 1
  let doe := yoe * 365 + yoe.fdiv 4 - yoe.fdiv 100 + doy
  era * 146097 + doe - 719468

/-- Civil date from days since 1970-01-01 (`civil_from_days`). -/
def civilFromDays (z : Int) : JSDate :=
  let z' := z + 719468
  let era := z'.fdiv 146097
  let doe := z' - era * 146097
  let yoe := (doe - doe.fdiv 1460 + doe.fdiv 36524 - doe.fdiv 146096).fdiv 365
  let y := yoe + era * 400
  let doy := doe - (365 * yoe + yoe.fdiv 4 - yoe.fdiv 100)
  let mp := (5 * doy + 2).fdiv 153
  let d := doy - (153 * mp + 2).fdiv 5 + 1
  let m := if mp < 10 then mp + 3 else mp - 9
  { year := if m ≤ 2 then y + 1 else y, month := m, day := d }

/-- Days since the epoch of a `JSDate` (its timestamp, in days). -/
def JSDate.toDays (d : JSDate) : Int := daysFromCivil d.year d.month d.day

/-- Timestamp in milliseconds of a `JSDate` (a midnight value). -/
def JSDate.toMs (d : JSDate) : Int := d.toDays * 86400000

/-- `new Date(year, monthIndex, day)`: ECMAScript normalisation — a year in
0..99 is read as 1900+year, the 0-based month index and the day may overflow
or underflow and are folded into the calendar. -/
def jsNewDateYMD (year monthIdx day : Int) : JSDate :=
  let yr := if 0 ≤ year && year ≤ 99 then year + 1900 else year
  let ym := yr + monthIdx.fdiv 12
  let mn := monthIdx.fmod 12
  civilFromDays (daysFromCivil ym (mn + 1) 1 + (day - 1))

/-- Numeric `<` on `Date` values (comparison of timestamps). -/
def jsDateLt (a b : JSDate) : Bool := a.toDays < b.toDays

def jsDateLe (a b : JSDate) : Bool := a.toDays ≤ b.toDays

/-! ## Unanchored global regex scanners

`String.prototype.match(re)` with the `g` flag returns the list of full-match
substrings (no capture groups), scanning left to right and resuming after
each match.  Each concrete pattern of the source is embedded as a
`matchAt : List Char → Option Nat` function giving the length of the match
starting at the head position, with the pattern's greedy/backtracking
behaviour worked out for its concrete character classes (all of which are
pairwise disjoint where adjacent, so greedy maximal runs are exact). -/

/-- Scan a string, collecting every match of `matchAt` the way a global JS
regex does: try at each position; on a match, continue after it.  The `fuel`
argument makes the recursion structural; every step shortens the list by at
least one character while spending exactly one unit of fuel, so starting
with `fuel = cs.length` (as `scanGlobal` does) the `0`-fuel branch is never
reached on a non-empty list. -/
def scanGlobalAux (matchAt : List Char → Option Nat) :
    Nat → List Char → List (List Char)
  | 0, _ => []
  | fuel + 1, cs =>
    match cs with
    | [] => []
    | c :: rest =>
      match matchAt (c :: rest) with
      | some n =>
        (c :: rest).take n :: scanGlobalAux matchAt fuel ((c :: rest).drop (max n 1))
      | none => scanGlobalAux matchAt fuel rest

def scanGlobal (matchAt : List Char → Option Nat) (cs : List Char) :
    List (List Char) :=
  scanGlobalAux matchAt cs.length cs

/-- The three-letter month abbreviations, as in the source's `monthNames`. -/
def monthNames : List String :=
  ["Jan", "Feb", "Mar", "Apr", "May", "Jun", "Jul", "Aug", "Sep", "Oct", "Nov", "Dec"]

/-- If the string starts with a month abbreviation up to case (the regex
alternation `(Jan|Feb|...|Dec)` under the `i` flag), return the three
matched characters in their original case. -/
def matchMonthAt (cs : List Char) : Option (List Char) :=
  match cs with
  | a :: b :: c :: _ =>
    if monthNames.any (fun m => lowerList m.data = lowerList [a, b, c]) then
      some [a, b, c]
    else none
  | _ => none

/-- `/(\d{1,2}[\/\-]\d{1,2}[\/\-]\d{2,4})/g` at one position. -/
def datePat1At (cs : List Char) : Option Nat :=
  let r1 := runLen Char.isDigit cs
  if r1 = 0 || 2 < r1 then none else
  match cs.drop r1 with
  | s1 :: rest2 =>
    if isSepCh s1 then
      let r2 := runLen Char.isDigit rest2
      if r2 = 0 || 2 < r2 then none else
      match rest2.drop r2 with
      | s2 :: rest4 =>
        if isSepCh s2 then
          let r3 := runLen Char.isDigit rest4
          if r3 < 2 then none else some (r1 + 1 + r2 + 1 + min r3 4)
        else none
      | [] => none
    else none
  | [] => none

/-- `/(\d{4}[\/\-]\d{1,2}[\/\-]\d{1,2})/g` at one position. -/
def datePat2At (cs : List Char) : Option Nat :=
  let r1 := runLen Char.isDigit cs
  if r1 < 4 then none else
  match cs.drop 4 with
  | s1 :: rest2 =>
    if isSepCh s1 then
      let r2 := runLen Char.isDigit rest2
      if r2 = 0 || 2 < r2 then none else
      match rest2.drop r2 with
      | s2 :: rest4 =>
        if isSepCh s2 then
          let r3 := runLen Char.isDigit rest4
          if r3 = 0 then none else some (4 + 1 + r2 + 1 + min r3 2)
        else none
      | [] => none
    else none
  | [] => none

/-- `/(Jan|...|Dec)\s+\d{1,2},?\s+\d{4}/gi` at one position. -/
def datePat3At (cs : List Char) : Option Nat :=
  match matchMonthAt cs with
  | none => none
  | some _ =>
    let rest := cs.drop 3
    let w1 := runLen isWsCh rest
    if w1 = 0 then none else
    let rest2 := rest.drop w1
    let rd := runLen Char.isDigit rest2
    if rd = 0 || 2 < rd then none else
    let rest3 := rest2.drop rd
    let commaLen := match rest3 with
      | ',' :: _ => 1
      | _ => 0
    let rest4 := rest3.drop commaLen
    let w2 := runLen isWsCh rest4
    if w2 = 0 then none else
    let ry := runLen Char.isDigit (rest4.drop w2)
    if ry < 4 then none else some (3 + w1 + rd + commaLen + w2 + 4)

/-- `/(\d{1,2}\s+(Jan|...|Dec)\s+\d{4})/gi` at one position. -/
def datePat4At (cs : List Char) : Option Nat :=
  let rd := runLen Char.isDigit cs
  if rd = 0 || 2 < rd then none else
  let rest := cs.drop rd
  let w1 := runLen isWsCh rest
  if w1 = 0 then none else
  match matchMonthAt (rest.drop w1) with
  | none => none
  | some _ =>
    let rest2 := (rest.drop w1).drop 3
    let w2 := runLen isWsCh rest2
    if w2 = 0 then none else
    let ry := runLen Char.isDigit (rest2.drop w2)
    if ry < 4 then none else some (rd + w1 + 3 + w2 + 4)

/-- `elementText.match(pattern)` for the four `datePatterns`, concatenated in
order, exactly as `allDates` is accumulated in `extractBidDataFromElement`. -/
def collectDateMatches (text : String) : List String :=
  let cs := text.data
  ((scanGlobal datePat1At cs ++ scanGlobal datePat2At cs) ++
   (scanGlobal datePat3At cs ++ scanGlobal datePat4At cs)).map String.mk

/-! ## `parseDate`: the anchored format regexes -/

/-- `^(\d{1,2})[\/\-](\d{1,2})[\/\-](\d{2,4})$` as the three numeric groups. -/
def fmt1Parse (cs : List Char) : Option (Nat × Nat × Nat) :=
  let r1 := runLen Char.isDigit cs
  if r1 = 0 || 2 < r1 then none else
  match cs.drop r1 with
  | s1 :: rest2 =>
    if isSepCh s1 then
      let r2 := runLen Char.isDigit rest2
      if r2 = 0 || 2 < r2 then none else
      match rest2.drop r2 with
      | s2 :: rest4 =>
        if isSepCh s2 then
          let r3 := runLen Char.isDigit rest4
          if 2 ≤ r3 && r3 ≤ 4 && (rest4.drop r3).isEmpty then
            some (toNatDigits (cs.take r1), toNatDigits (rest2.take r2),
                  toNatDigits (rest4.take r3))
          else none
        else none
      | [] => none
    else none
  | [] => none

/-- `^(\d{4})[\/\-](\d{1,2})[\/\-](\d{1,2})$` as the three numeric groups. -/
def fmt2Parse (cs : List Char) : Option (Nat × Nat × Nat) :=
  let r1 := runLen Char.isDigit cs
  if r1 ≠ 4 then none else
  match cs.drop 4 with
  | s1 :: rest2 =>
    if isSepCh s1 then
      let r2 := runLen Char.isDigit rest2
      if r2 = 0 || 2 < r2 then none else
      match rest2.drop r2 with
      | s2 :: rest4 =>
        if isSepCh s2 then
          let r3 := runLen Char.isDigit rest4
          if (r3 = 1 || r3 = 2) && (rest4.drop r3).isEmpty then
            some (toNatDigits (cs.take 4), toNatDigits (rest2.take r2),
                  toNatDigits (rest4.take r3))
          else none
        else none
      | [] => none
    else none
  | [] => none

/-- `^(Jan|...|Dec)\s+(\d{1,2}),?\s+(\d{4})$` (with `i`): the month group in
its original case, plus day and year. -/
def fmt3Parse (cs : List Char) : Option (List Char × Nat × Nat) :=
  match matchMonthAt cs with
  | none => none
  | some mon =>
    let rest := cs.drop 3
    let w1 := runLen isWsCh rest
    if w1 = 0 then none else
    let rest2 := rest.drop w1
    let rd := runLen Char.isDigit rest2
    if rd = 0 || 2 < rd then none else
    let rest3 := rest2.drop rd
    let commaLen := match rest3 with
      | ',' :: _ => 1
      | _ => 0
    let rest4 := rest3.drop commaLen
    let w2 := runLen isWsCh rest4
    if w2 = 0 then none else
    let rest5 := rest4.drop w2
    let ry := runLen Char.isDigit rest5
    if ry = 4 && (rest5.drop 4).isEmpty then
      some (mon, toNatDigits (rest2.take rd), toNatDigits (rest5.take 4))
    else none

/-- `^(\d{1,2})\s+(Jan|...|Dec)\s+(\d{4})$` (with `i`): day, month group in
its original case, year. -/
def fmt4Parse (cs : List Char) : Option (Nat × List Char × Nat) :=
  let rd := runLen Char.isDigit cs
  if rd = 0 || 2 < rd then none else
  let rest := cs.drop rd
  let w1 := runLen isWsCh rest
  if w1 = 0 then none else
  match matchMonthAt (rest.drop w1) with
  | none => none
  | some mon =>
    let rest2 := (rest.drop w1).drop 3
    let w2 := runLen isWsCh rest2
    if w2 = 0 then none else
    let rest3 := rest2.drop w2
    let ry := runLen Char.isDigit rest3
    if ry = 4 && (rest3.drop 4).isEmpty then
      some (toNatDigits (cs.take rd), mon, toNatDigits (rest3.take 4))
    else none

/-- `monthNames.indexOf(s)` — case-sensitive, `-1` when absent, exactly as in
the source (note the `i`-flag regex can deliver a month whose case does not
occur in `monthNames`, making this `-1`). -/
def monthIndexCS (mon : List Char) : Int :=
  let rec go : List String → Int → Int
    | [], _ => -1
    | m :: ms, i => if m.data = mon then i else go ms (i + 1)
  go monthNames 0

/-- The year-range acceptance test of `parseDate`:
`!isNaN(date.getTime()) && date.getFullYear() > 1900 && date.getFullYear() < 2100`.
All dates produced by `jsNewDateYMD` on the bounded parsed components are
valid (never NaN), so the NaN conjunct is vacuous here. -/
def validateYear (d : JSDate) : Option JSDate :=
  if 1900 < d.year && d.year < 2100 then some d else none

/-- The ECMAScript Date Time String Format (date-only productions
`YYYY`, `YYYY-MM`, `YYYY-MM-DD`), the portion of `new Date(string)` that the
language standard pins down; out-of-bounds fields give an invalid date
(`none`), and strings outside this format — whose parsing ECMA-262 leaves
implementation-defined — are modelled as unrecognised (`none`). -/
def jsDateFromString (s : String) : Option JSDate :=
  let cs := s.data
  let daysInMonth (y m : Nat) : Nat :=
    if m = 2 then (if y % 4 = 0 && (y % 100 ≠ 0 || y % 400 = 0) then 29 else 28)
    else if m = 4 || m = 6 || m = 9 || m = 11 then 30 else 31
  match cs with
  | [a, b, c, d] =>
    if [a, b, c, d].all Char.isDigit then
      some ⟨Int.ofNat (toNatDigits [a, b, c, d]), 1, 1⟩
    else none
  | [a, b, c, d, '-', m1, m2] =>
    if [a, b, c, d, m1, m2].all Char.isDigit then
      let m := toNatDigits [m1, m2]
      if 1 ≤ m && m ≤ 12 then some ⟨Int.ofNat (toNatDigits [a, b, c, d]), Int.ofNat m, 1⟩
      else none
    else none
  | [a, b, c, d, '-', m1, m2, '-', d1, d2] =>
    if [a, b, c, d, m1, m2, d1, d2].all Char.isDigit then
      let y := toNatDigits [a, b, c, d]
      let m := toNatDigits [m1, m2]
      let dd := toNatDigits [d1, d2]
      if 1 ≤ m && m ≤ 12 && 1 ≤ dd && dd ≤ daysInMonth y m then
        some ⟨Int.ofNat y, Int.ofNat m, Int.ofNat dd⟩
      else none
    else none
  | _ => none

/-- The `MM/DD/YYYY` branch of the format loop, including the two-digit-year
pivot (`year < 50 ? +2000 : +1900`) and the year-range acceptance test. -/
def fmt1Date (cs : List Char) : Option JSDate :=
  match fmt1Parse cs with
  | some (mo, da, yrRaw) =>
    let year : Int :=
      if yrRaw < 100 then (if yrRaw < 50 then yrRaw + 2000 else yrRaw + 1900)
      else yrRaw
    validateYear (jsNewDateYMD year (Int.ofNat mo - 1) (Int.ofNat da))
  | none => none

/-- The `YYYY-MM-DD` branch (`match[1].length === 4`). -/
def fmt2Date (cs : List Char) : Option JSDate :=
  match fmt2Parse cs with
  | some (yr, mo, da) =>
    validateYear (jsNewDateYMD (Int.ofNat yr) (Int.ofNat mo - 1) (Int.ofNat da))
  | none => none

/-- The `Month DD, YYYY` branch: `monthNames.indexOf(match[1].substr(0,3)) + 1`
(case-sensitive `indexOf`, so an unusual-case month gives index `-1` and the
constructed date underflows into December of the previous year). -/
def fmt3Date (cs : List Char) : Option JSDate :=
  match fmt3Parse cs with
  | some (mon, da, yr) =>
    let month := monthIndexCS mon + 1
    validateYear (jsNewDateYMD (Int.ofNat yr) (month - 1) (Int.ofNat da))
  | none => none

/-- The `DD Month YYYY` branch (`match[1]` starts with a digit). -/
def fmt4Date (cs : List Char) : Option JSDate :=
  match fmt4Parse cs with
  | some (da, mon, yr) =>
    let month := monthIndexCS mon + 1
    validateYear (jsNewDateYMD (Int.ofNat yr) (month - 1) (Int.ofNat da))
  | none => none

/-- The `for (const format of dateFormats)` loop: a format that does not
match — or matches but fails the year test — falls through to the next. -/
def parseDateFormats (cs : List Char) : Option JSDate :=
  fmt1Date cs <|> fmt2Date cs <|> fmt3Date cs <|> fmt4Date cs

/-- `parseDate(dateString)` from `septaScraper.js`: trim, try the four
anchored formats in order, then `new Date(cleanDate)` as fallback — which
performs no year-range check. -/
def parseDate (dateString : String) : Option JSDate :=
  let cleanDate := jsTrimStr dateString
  parseDateFormats cleanDate.data <|> jsDateFromString cleanDate

/-! ## Amount, quantity and external-id extraction -/

/-- Optional cents suffix `(?:\.\d{2})?`: 3 when a `.` followed by at least
two digits is present (`\d{2}` consumes exactly two), else 0. -/
def centsOptLen (cs : List Char) : Nat :=
  match cs with
  | '.' :: d1 :: d2 :: _ => if d1.isDigit && d2.isDigit then 3 else 0
  | _ => 0

/-- `/\$[\d,]+(?:\.\d{2})?/g` at one position. -/
def amtPat1At (cs : List Char) : Option Nat :=
  match cs with
  | '$' :: rest =>
    let r := runLen isDigCommaCh rest
    if r = 0 then none else some (1 + r + centsOptLen (rest.drop r))
  | _ => none

/-- `/\$\s*[\d,]+(?:\.\d{2})?/g` at one position. -/
def amtPat2At (cs : List Char) : Option Nat :=
  match cs with
  | '$' :: rest =>
    let w := runLen isWsCh rest
    let r := runLen isDigCommaCh (rest.drop w)
    if r = 0 then none else some (1 + w + r + centsOptLen ((rest.drop w).drop r))
  | _ => none

/-- `/USD\s*[\d,]+(?:\.\d{2})?/gi` at one position. -/
def amtPat3At (cs : List Char) : Option Nat :=
  if hasPrefixCI "USD".data cs then
    let rest := cs.drop 3
    let w := runLen isWsCh rest
    let r := runLen isDigCommaCh (rest.drop w)
    if r = 0 then none else some (3 + w + r + centsOptLen ((rest.drop w).drop r))
  else none

/-- `/Amount:\s*\$?[\d,]+(?:\.\d{2})?/gi` at one position. -/
def amtPat4At (cs : List Char) : Option Nat :=
  if hasPrefixCI "Amount:".data cs then
    let rest := cs.drop 7
    let w := runLen isWsCh rest
    let rest2 := rest.drop w
    let dollarLen := match rest2 with
      | '$' :: _ => 1
      | _ => 0
    let rest3 := rest2.drop dollarLen
    let r := runLen isDigCommaCh rest3
    if r = 0 then none else some (7 + w + dollarLen + r + centsOptLen (rest3.drop r))
  else none

/-- `amountMatches[0].replace(/[^\d,.$]/g, '')`. -/
def cleanAmount (s : String) : String :=
  String.mk (s.data.filter fun c => c.isDigit || c = ',' || c = '.' || c = '$')

/-- The amount loop of `extractBidDataFromElement`: first pattern (in order)
with a non-empty global match list wins; its first full match is cleaned.
No match leaves the initial empty string. -/
def extractAmount (text : String) : String :=
  let cs := text.data
  let pats := [amtPat1At, amtPat2At, amtPat3At, amtPat4At]
  let rec go : List (List Char → Option Nat) → String
    | [] => ""
    | p :: ps =>
      match scanGlobal p cs with
      | [] => go ps
      | m :: _ => cleanAmount (String.mk m)
  go pats

/-- Keyword alternation followed by a separator run and a value run: the
common shape of the quantity- and id-pattern: try the keyword alternatives
in regex order; after the matched keyword, `sepP*` is consumed greedily and
at least one `valP` character must follow (the separator and value classes
are disjoint, so the greedy run never needs to backtrack).  Returns the
total match length. -/
def kwSepValueAt (kws : List String) (sepP valP : Char → Bool)
    (cs : List Char) : Option Nat :=
  match kws with
  | [] => none
  | kw :: rest =>
    (if hasPrefixCI kw.data cs then
      let body := cs.drop kw.length
      let w := runLen sepP body
      let r := runLen valP (body.drop w)
      if r = 0 then none else some (kw.length + w + r)
    else none) <|> kwSepValueAt rest sepP valP cs

/-- `/(?:qty|quantity)[\s:]*(\d+(?:\.\d+)?)/gi` at one position. -/
def qtyPat1At (cs : List Char) : Option Nat :=
  let tryKw (kw : String) : Option Nat :=
    if hasPrefixCI kw.data cs then
      let body := cs.drop kw.length
      let w := runLen isQtySepCh body
      let r := runLen Char.isDigit (body.drop w)
      if r = 0 then none else
      let rest := (body.drop w).drop r
      let fracLen := match rest with
        | '.' :: more =>
          let rf := runLen Char.isDigit more
          if rf = 0 then 0 else 1 + rf
        | _ => 0
      some (kw.length + w + r + fracLen)
    else none
  tryKw "qty" <|> tryKw "quantity"

/-- `/(\d+)\s*(?:each|units?|pieces?|items?)/gi` at one position. -/
def qtyPat2At (cs : List Char) : Option Nat :=
  let r := runLen Char.isDigit cs
  if r = 0 then none else
  let rest := cs.drop r
  let w := runLen isWsCh rest
  let body := rest.drop w
  let unitLen : Option Nat :=
    if hasPrefixCI "each".data body then some 4
    else if hasPrefixCI "units".data body then some 5
    else if hasPrefixCI "unit".data body then some 4
    else if hasPrefixCI "pieces".data body then some 6
    else if hasPrefixCI "piece".data body then some 5
    else if hasPrefixCI "items".data body then some 5
    else if hasPrefixCI "item".data body then some 4
    else none
  match unitLen with
  | some u => some (r + w + u)
  | none => none

/-- `/amount:\s*(\d+)/gi` at one position. -/
def qtyPat3At (cs : List Char) : Option Nat :=
  if hasPrefixCI "amount:".data cs then
    let body := cs.drop 7
    let w := runLen isWsCh body
    let r := runLen Char.isDigit (body.drop w)
    if r = 0 then none else some (7 + w + r)
  else none

/-- The quantity loop: `elementText.match(pattern)` per pattern in order;
on the first non-null result `bid.quantity = qtyMatch[1]` — with a global
regex, element 1 of the match array is the SECOND full match when two or
more exist and `undefined` otherwise (`none` here); the initial field value
is the empty string (`some ""`). -/
def extractQuantity (text : String) : Option String :=
  let cs := text.data
  let rec go : List (List Char → Option Nat) → Option String
    | [] => some ""
    | p :: ps =>
      match scanGlobal p cs with
      | [] => go ps
      | ms => (ms.map String.mk).get? 1
  go [qtyPat1At, qtyPat2At, qtyPat3At]

/-- `/(?:req|requisition)[\s#:]*([a-zA-Z0-9\-]+)/gi` at one position. -/
def idPat1At : List Char → Option Nat :=
  kwSepValueAt ["req", "requisition"] isIdSepCh isAlnumDashCh

/-- `/(?:bid|rfp|rfq)[\s#:]*([a-zA-Z0-9\-]+)/gi` at one position. -/
def idPat2At : List Char → Option Nat :=
  kwSepValueAt ["bid", "rfp", "rfq"] isIdSepCh isAlnumDashCh

/-- `/(?:solicitation)[\s#:]*([a-zA-Z0-9\-]+)/gi` at one position. -/
def idPat3At : List Char → Option Nat :=
  kwSepValueAt ["solicitation"] isIdSepCh isAlnumDashCh

/-- `/#([a-zA-Z0-9\-]+)/g` at one position. -/
def idPat4At (cs : List Char) : Option Nat :=
  match cs with
  | '#' :: rest =>
    let r := runLen isAlnumDashCh rest
    if r = 0 then none else some (1 + r)
  | _ => none

/-- The external-id loop: first `idPatterns` entry whose global match is
non-null wins, and `bid.externalId = idMatch[1]` — again element 1 of the
full-match array: the second full match, or `undefined` (`none`) when the
pattern matched only once.  The initial field value is `some ""`. -/
def extractExternalId (text : String) : Option String :=
  let cs := text.data
  let rec go : List (List Char → Option Nat) → Option String
    | [] => some ""
    | p :: ps =>
      match scanGlobal p cs with
      | [] => go ps
      | ms => (ms.map String.mk).get? 1
  go [idPat1At, idPat2At, idPat3At, idPat4At]

/-! ## The bid classifier -/

/-- The fixed keyword vocabulary of `isBidRelated`. -/
def bidKeywords : List String :=
  ["solicitation", "bid", "rfp", "rfq", "proposal", "contract",
   "procurement", "vendor", "invitation", "award", "notice",
   "requisition", "quote", "purchase", "services", "supplies",
   "equipment", "maintenance", "construction", "repair",
   "consulting", "professional", "installation", "delivery"]

/-- `isBidRelated(text)`: case-insensitive substring match against the fixed
vocabulary; any single hit qualifies. -/
def isBidRelated (text : String) : Bool :=
  let lowerText := lowerList text.data
  bidKeywords.any fun keyword => containsSub keyword.data lowerText

/-! ## `generateHash` from `encryption.js`: SHA-256, hex digest

`crypto.createHash('sha256').update(text).digest('hex')` — the text is
UTF-8 encoded (Node's default), hashed with FIPS 180-4 SHA-256, and printed
as 64 lowercase hex digits.  Words are `Nat` values kept below `2^32` by
explicit reduction. -/

/-- UTF-8 encoding of one character, as byte values. -/
def utf8Char (c : Char) : List Nat :=
  let n := c.toNat
  if n < 128 then [n]
  else if n < 2048 then [192 + n / 64, 128 + n % 64]
  else if n < 65536 then [224 + n / 4096, 128 + (n / 64) % 64, 128 + n % 64]
  else [240 + n / 262144, 128 + (n / 4096) % 64, 128 + (n / 64) % 64, 128 + n % 64]

def utf8Bytes (s : String) : List Nat := s.data.flatMap utf8Char

/-- Rotate a 32-bit word right by `k`. -/
def rotr32 (k x : Nat) : Nat := (x / 2 ^ k + x % 2 ^ k * 2 ^ (32 - k)) % 2 ^ 32

def shaCh (x y z : Nat) : Nat := (x &&& y) ^^^ ((x ^^^ 4294967295) &&& z)

def shaMaj (x y z : Nat) : Nat := (x &&& y) ^^^ (x &&& z) ^^^ (y &&& z)

def bigSigma0 (x : Nat) : Nat := rotr32 2 x ^^^ rotr32 13 x ^^^ rotr32 22 x

def bigSigma1 (x : Nat) : Nat := rotr32 6 x ^^^ rotr32 11 x ^^^ rotr32 25 x

def smallSigma0 (x : Nat) : Nat := rotr32 7 x ^^^ rotr32 18 x ^^^ x / 2 ^ 3

def smallSigma1 (x : Nat) : Nat := rotr32 17 x ^^^ rotr32 19 x ^^^ x / 2 ^ 10

/-- The 64 SHA-256 round constants (FIPS 180-4, written in decimal). -/
def sha256K : List Nat :=
  [1116352408, 1899447441, 3049323471, 3921009573, 961987163,
   1508970993, 2453635748, 2870763221, 3624381080, 310598401,
   607225278, 1426881987, 1925078388, 2162078206, 2614888103,
   3248222580, 3835390401, 4022224774, 264347078, 604807628,
   770255983, 1249150122, 1555081692, 1996064986, 2554220882,
   2821834349, 2952996808, 3210313671, 3336571891, 3584528711,
   113926993, 338241895, 666307205, 773529912, 1294757372,
   1396182291, 1695183700, 1986661051, 2177026350, 2456956037,
   2730485921, 2820302411, 3259730800, 3345764771, 3516065817,
   3600352804, 4094571909, 275423344, 430227734, 506948616,
   659060556, 883997877, 958139571, 1322822218, 1537002063,
   1747873779, 1955562222, 2024104815, 2227730452, 2361852424,
   2428436474, 2756734187, 3204031479, 3329325298]

/-- The initial SHA-256 hash state (FIPS 180-4, written in decimal). -/
def sha256H0 : List Nat :=
  [1779033703, 3144134277, 1013904242, 2773480762,
   1359893119, 2600822924, 528734635, 1541459225]

/-- Big-endian 64-bit length field. -/
def be64 (n : Nat) : List Nat :=
  [n / 2 ^ 56 % 256, n / 2 ^ 48 % 256, n / 2 ^ 40 % 256, n / 2 ^ 32 % 256,
   n / 2 ^ 24 % 256, n / 2 ^ 16 % 256, n / 2 ^ 8 % 256, n % 256]

/-- SHA-256 padding: `0x80`, zeros to 56 mod 64, then the bit length. -/
def padMessage (bytes : List Nat) : List Nat :=
  let len := bytes.length
  let zeros := (119 - len % 64) % 64
  bytes ++ 128 :: List.replicate zeros 0 ++ be64 (8 * len)

/-- Big-endian 32-bit words from bytes (length a multiple of 4). -/
def toWords : List Nat → List Nat
  | b1 :: b2 :: b3 :: b4 :: rest =>
    (b1 * 2 ^ 24 + b2 * 2 ^ 16 + b3 * 2 ^ 8 + b4) :: toWords rest
  | _ => []

/-- Split a word list into 16-word blocks. -/
def chunk16 : List Nat → List (List Nat)
  | [] => []
  | w :: ws => ((w :: ws).take 16) :: chunk16 (ws.drop 15)
termination_by l => l.length
decreasing_by simp [List.length_drop]; omega

/-- Extend a 16-word block to the 64-word message schedule. -/
def extendSchedule : Nat → List Nat → List Nat
  | 0, w => w
  | k + 1, w =>
    let i := w.length
    let nw := (smallSigma1 (w.getD (i - 2) 0) + w.getD (i - 7) 0 +
               smallSigma0 (w.getD (i - 15) 0) + w.getD (i - 16) 0) % 2 ^ 32
    extendSchedule k (w ++ [nw])

/-- One compression round on the 8-word working state. -/
def compressStep (st : List Nat) (kw : Nat × Nat) : List Nat :=
  match st with
  | [a, b, c, d, e, f, g, h] =>
    let t1 := (h + bigSigma1 e + shaCh e f g + kw.1 + kw.2) % 2 ^ 32
    let t2 := (bigSigma0 a + shaMaj a b c) % 2 ^ 32
    [(t1 + t2) % 2 ^ 32, a, b, c, (d + t1) % 2 ^ 32, e, f, g]
  | st => st

/-- Process one 512-bit block. -/
def compressChunk (h0 : List Nat) (block : List Nat) : List Nat :=
  let ws := extendSchedule 48 block
  let fin := (sha256K.zip ws).foldl compressStep h0
  (h0.zip fin).map fun p => (p.1 + p.2) % 2 ^ 32

def hexDigitCh (n : Nat) : Char := Char.ofNat (if n < 10 then 48 + n else 87 + n)

/-- Eight lowercase hex digits of a 32-bit word, most significant first. -/
def hex8 (n : Nat) : String :=
  String.mk ((List.range 8).map fun i => hexDigitCh (n / 2 ^ (4 * (7 - i)) % 16))

/-- `generateHash(text)` from `encryption.js`: the SHA-256 hex digest of the
UTF-8 encoding of `text`. -/
def generateHash (text : String) : String :=
  let hs := (chunk16 (toWords (padMessage (utf8Bytes text)))).foldl compressChunk sha256H0
  String.join (hs.map hex8)

/-! ## The per-row field extractor -/

/-- The `ExtractedBid` record built by `extractBidDataFromElement`.  Fields
that JavaScript may leave as `undefined` (`quantity`, `externalId`, after the
`match[1]` indexing) are `Option String`, with `some ""` for the initial
empty-string value and `none` for `undefined`. -/
structure Bid where
  portal : String
  title : String
  postedDate : Option JSDate
  dueDate : Option JSDate
  amount : String
  quantity : Option String
  link : String
  documents : List (String × String)
  externalId : Option String
  description : String
  status : String
  titleHash : String
deriving DecidableEq, Repr

/-- One listing-row element, as the extractor observes it: its text content
(`textContent`, with a `null` result folded to `""`), and the outcome of
each fixed selector list, in selector order — `none` when the selector finds
no element (or its evaluation threw, which the per-selector `catch`
swallows).  `titleCands` are text contents for the 8 title selectors,
`linkCands` are `href` values for the 5 link selectors, and `docCands` are
the `(href, text)` pairs each of the 7 document selectors returns. -/
structure RowElement where
  text : String
  titleCands : List (Option String)
  linkCands : List (Option String)
  docCands : List (List (Option String × Option String))
deriving Repr

/-- The title selector loop: first candidate whose trimmed text is longer
than 10 characters wins (`titleText && titleText.length > 10`). -/
def firstQualifyingTitle : List (Option String) → Option String
  | [] => none
  | none :: rest => firstQualifyingTitle rest
  | some t :: rest =>
    let tt := jsTrimStr t
    if 10 < tt.length then some tt else firstQualifyingTitle rest

/-- Title resolution of `extractBidDataFromElement`: the structural selector
loop, then — only when the row's trimmed text splits into at least three
whitespace-separated words — the first ten words joined by single spaces.
With fewer than three words the title keeps its initial empty value. -/
def computeTitle (cands : List (Option String)) (text : String) : String :=
  match firstQualifyingTitle cands with
  | some t => t
  | none =>
    let words := splitWsStr (jsTrimStr text)
    if 3 ≤ words.length then " ".intercalate (words.take 10) else ""

/-- The link selector loop: first candidate with a truthy `href` wins and is
resolved against the current page URL (`resolve` stands for
`href => new URL(href, page.url()).toString()`). -/
def pickLink (resolve : String → String) : List (Option String) → String
  | [] => ""
  | none :: rest => pickLink resolve rest
  | some h :: rest => if h = "" then pickLink resolve rest else resolve h

/-- The document loop: over every selector, every link with truthy `href`
and truthy text contributes `{name: text.trim(), url: resolved}`; duplicates
are kept. -/
def pickDocuments (resolve : String → String)
    (cands : List (List (Option String × Option String))) : List (String × String) :=
  cands.flatMap fun links =>
    links.filterMap fun l =>
      match l with
      | (some href, some txt) =>
        if href = "" || txt = "" then none
        else some (jsTrimStr txt, resolve href)
      | _ => none

/-- The date pipeline of `extractBidDataFromElement`: collect every match of
the four date patterns, parse each with `parseDate`, drop failures, sort
ascending by timestamp. -/
def sortDates (l : List JSDate) : List JSDate :=
  l.foldr (fun d acc => acc.orderedInsert (fun a b => a.toDays ≤ b.toDays) d) []

def parsedDatesOfText (text : String) : List JSDate :=
  sortDates ((collectDateMatches text).filterMap parseDate)

/-- The expiry test `bid.dueDate && bid.dueDate < new Date()`: a `Date`
object is always truthy, so this is "a due date is present and its timestamp
is before the clock instant `now` (in ms)". -/
def bidExpired (b : Bid) (now : Int) : Bool :=
  match b.dueDate with
  | some d => d.toMs < now
  | none => false

/-- `extractBidDataFromElement(element)`: `none` models `return null` (row
skipped).  `now` is the value of `new Date()` at this row's extraction, as a
millisecond timestamp.  The title hash is attached to the surviving record
exactly as the source does after the expiry filter. -/
def extractBidDataFromElement (resolve : String → String) (now : Int)
    (el : RowElement) : Option Bid :=
  if jsTrimStr el.text = "" then none
  else
    let title := computeTitle el.titleCands el.text
    if title = "" || !isBidRelated title then none
    else
      let pd := parsedDatesOfText el.text
      let bid : Bid :=
        { portal := "SEPTA"
          title := title
          postedDate := pd.head?
          dueDate := if 1 < pd.length then pd.getLast? else none
          amount := extractAmount el.text
          quantity := extractQuantity el.text
          link := pickLink resolve el.linkCands
          documents := pickDocuments resolve el.docCands
          externalId := extractExternalId el.text
          description := collapseWs el.text
          status := "open"
          titleHash := generateHash title }
      if bidExpired bid now then none else some bid

/-! ## Page-level extraction -/

/-- What happens when the row loop reaches one element: extracting it either
runs `extractBidDataFromElement` or throws (any exception — the inner
`catch` logs and moves to the next element). -/
inductive RowOutcome where
  | throwsRow (msg : String)
  | elem (el : RowElement)

/-- One listing page as `extractBidsFromCurrentPage` observes it: per
bid-row selector, the list of elements it matches (the first selector with a
non-empty result is used), and an optional exception thrown during the
page-level processing outside the per-row `try` (caught by the function's
outer `catch`, which still returns the accumulated — there, empty — list). -/
structure PageModel where
  rowSel : List (List RowOutcome)
  scanFailure : Option String

/-- The bid-row selector loop: first selector with at least one element. -/
def selectRows (pm : PageModel) : List RowOutcome :=
  match pm.rowSel.find? (fun l => !l.isEmpty) with
  | some l => l
  | none => []

/-- The body of the row loop of `extractBidsFromCurrentPage`: a throw from a
single row's extraction is caught per-row (`catch` → warn → continue) and
skips only that row; a `null` result is not pushed. -/
def rowStep (resolve : String → String) (now : Int) (bids : List Bid)
    (ro : RowOutcome) : List Bid :=
  match ro with
  | .throwsRow _ => bids
  | .elem el =>
    match extractBidDataFromElement resolve now el with
    | some b => bids ++ [b]
    | none => bids

/-- `extractBidsFromCurrentPage()`: never throws — a page-level exception is
caught by the function's outer `catch` and the bids accumulated so far are
returned (here the empty list, since nothing inside the row loop can throw
past the inner `catch`). -/
def extractBidsFromCurrentPage (resolve : String → String) (now : Int)
    (pm : PageModel) : List Bid :=
  match pm.scanFailure with
  | some _ => []
  | none => (selectRows pm).foldl (rowStep resolve now) []

/-! ## Pagination and `scrapeBids` -/

/-- A candidate next-page control, as one selector of the next-button loop
sees it: its visibility and its `href` attribute (`none` for a missing
attribute). -/
structure NextCandidate where
  visible : Bool
  href : Option String
deriving DecidableEq, Repr

/-- The acceptance test of the next-button loop:
`nextButton && await nextButton.isVisible()` and then
`href && !href.includes('#')` — visible, with a truthy (present, non-empty)
`href` that contains no `'#'` character anywhere. -/
def acceptNext (c : NextCandidate) : Bool :=
  c.visible &&
    match c.href with
    | some h => !(h = "") && !(containsCharStr h '#')
    | none => false

/-- The next-button selector loop: per selector either no element (`none`)
or a candidate; a candidate failing the acceptance test is reset to `null`
and the scan continues with the next selector. -/
def findNextButton : List (Option NextCandidate) → Option NextCandidate
  | [] => none
  | none :: rest => findNextButton rest
  | some c :: rest => if acceptNext c then some c else findNextButton rest

/-- The behaviour of the portal as one run of `scrapeBids` observes it: the
outcome of each awaited pre-loop navigation, and per page index the page
content, the next-button candidates, and the outcome of the click /
idle-wait / settle-delay sequence that follows an accepted next button.
`Except.error` models a thrown exception. -/
structure PortalEnv where
  resolve : String → String
  gotoDashboard : Except String Unit
  quotesLinkFound : Bool
  quotesNav : Except String Unit
  gotoSearchPage : Except String Unit
  gotoListPage : Except String Unit
  searchButtonFound : Bool
  searchNav : Except String Unit
  pages : Nat → PageModel
  nextCandidates : Nat → List (Option NextCandidate)
  nextNav : Nat → Except String Unit

/-- The pagination `while (hasMorePages && currentPage <= 50)` loop.  The
guard is encoded structurally: `remaining` is `51 - currentPage`, so the
loop is entered exactly while `currentPage <= 50`; the `hasMorePages =
false` assignments of the source become direct returns (the loop re-check
would exit immediately).  Returns the accumulated bids together with the
number of next-page navigations performed and the number of page iterations
executed.  A failed next-page navigation is caught
(`hasMorePages = false`) and never escapes. -/
def scrapeLoop (env : PortalEnv) (now : Int) :
    Nat → Nat → List Bid → Nat → Nat → List Bid × Nat × Nat
  | 0, _, bids, navs, pagesDone => (bids, navs, pagesDone)
  | r + 1, currentPage, bids, navs, pagesDone =>
    let pageBids := extractBidsFromCurrentPage env.resolve now (env.pages currentPage)
    let bids2 := bids ++ pageBids
    match findNextButton (env.nextCandidates currentPage) with
    | some _ =>
      match env.nextNav currentPage with
      | .ok _ => scrapeLoop env now r (currentPage + 1) bids2 (navs + 1) (pagesDone + 1)
      | .error _ => (bids2, navs + 1, pagesDone + 1)
    | none => (bids2, navs, pagesDone + 1)

/-- The pagination phase of `scrapeBids`, started at `currentPage = 1`
(so 50 remaining iterations are allowed by the `currentPage <= 50` guard). -/
def scrapePagination (env : PortalEnv) (now : Int) : List Bid × Nat × Nat :=
  scrapeLoop env now 50 1 [] 0 0

/-- `scrapeBids()`: dashboard navigation, quotes-link click or the two
direct-navigation fallbacks, optional search submission, then the pagination
loop.  The function's own `catch` block re-throws (`throw error`), so an
exception from any of the awaited pre-loop navigations propagates to the
caller unchanged, while the loop itself never throws. -/
def scrapeBids (env : PortalEnv) (now : Int) : Except String (List Bid) :=
  match env.gotoDashboard with
  | .error e => .error e
  | .ok _ =>
    let navListing : Except String Unit :=
      if env.quotesLinkFound then env.quotesNav
      else
        match env.gotoSearchPage with
        | .ok _ => .ok ()
        | .error _ => env.gotoListPage
    match navListing with
    | .error e => .error e
    | .ok _ =>
      let navSearch : Except String Unit :=
        if env.searchButtonFound then env.searchNav else .ok ()
      match navSearch with
      | .error e => .error e
      | .ok _ => .ok (scrapePagination env now).1

/-- The pre-loop listing navigations all succeed: the dashboard loads; when
a quotes link was found its click-and-settle succeeds; otherwise one of the
two direct navigation targets loads; and when a search button is present its
submission settles. -/
def listingNavOk (env : PortalEnv) : Prop :=
  env.gotoDashboard = .ok () ∧
  (env.quotesLinkFound = true → env.quotesNav = .ok ()) ∧
  (env.quotesLinkFound = false →
    (env.gotoSearchPage = .ok () ∨ env.gotoListPage = .ok ())) ∧
  (env.searchButtonFound = true → env.searchNav = .ok ())

/-! ## Helper lemmas -/

theorem orElse_eq_some_cases {α : Type} (a b : Option α) (x : α)
    (h : (a <|> b) = some x) : a = some x ∨ (a = none ∧ b = some x) := by
  cases a <;> simp_all

theorem validateYear_bounds (x d : JSDate) (h : validateYear x = some d) :
    1900 < d.year ∧ d.year < 2100 := by
  unfold validateYear at h
  split at h
  · rename_i hc
    cases h
    simpa using hc
  · cases h

theorem fmt1Date_bounds (cs : List Char) (d : JSDate) (h : fmt1Date cs = some d) :
    1900 < d.year ∧ d.year < 2100 := by
  unfold fmt1Date at h
  rcases h1 : fmt1Parse cs with _ | ⟨mo, da, yr⟩ <;> rw [h1] at h
  · cases h
  · exact validateYear_bounds _ _ h

theorem fmt2Date_bounds (cs : List Char) (d : JSDate) (h : fmt2Date cs = some d) :
    1900 < d.year ∧ d.year < 2100 := by
  unfold fmt2Date at h
  rcases h1 : fmt2Parse cs with _ | ⟨yr, mo, da⟩ <;> rw [h1] at h
  · cases h
  · exact validateYear_bounds _ _ h

theorem fmt3Date_bounds (cs : List Char) (d : JSDate) (h : fmt3Date cs = some d) :
    1900 < d.year ∧ d.year < 2100 := by
  unfold fmt3Date at h
  rcases h1 : fmt3Parse cs with _ | ⟨mon, da, yr⟩ <;> rw [h1] at h
  · cases h
  · exact validateYear_bounds _ _ h

theorem fmt4Date_bounds (cs : List Char) (d : JSDate) (h : fmt4Date cs = some d) :
    1900 < d.year ∧ d.year < 2100 := by
  unfold fmt4Date at h
  rcases h1 : fmt4Parse cs with _ | ⟨da, mon, yr⟩ <;> rw [h1] at h
  · cases h
  · exact validateYear_bounds _ _ h

theorem parseDateFormats_bounds (cs : List Char) (d : JSDate)
    (h : parseDateFormats cs = some d) : 1900 < d.year ∧ d.year < 2100 := by
  unfold parseDateFormats at h
  rcases orElse_eq_some_cases _ _ _ h with h1 | ⟨_, h⟩
  · exact fmt1Date_bounds _ _ h1
  rcases orElse_eq_some_cases _ _ _ h with h2 | ⟨_, h⟩
  · exact fmt2Date_bounds _ _ h2
  rcases orElse_eq_some_cases _ _ _ h with h3 | ⟨_, h4⟩
  · exact fmt3Date_bounds _ _ h3
  · exact fmt4Date_bounds _ _ h4

/-! ## Claim theorems -/

/-- Claim C7: the Date Normalizer maps `"02/15/2024"`, `"2024-02-15"`,
`"Feb 15, 2024"` and `"15 Feb 2024"` to the same calendar date,
February 15, 2024. -/
theorem parseDate_four_formats_agree :
    parseDate "02/15/2024" = some ⟨2024, 2, 15⟩ ∧
    parseDate "2024-02-15" = some ⟨2024, 2, 15⟩ ∧
    parseDate "Feb 15, 2024" = some ⟨2024, 2, 15⟩ ∧
    parseDate "15 Feb 2024" = some ⟨2024, 2, 15⟩ := by
  refine ⟨?_, ?_, ?_, ?_⟩ <;> decide

/-- Claim C3, counterexample: `parseDate` is claimed to return only dates
with year in [1901, 2099] or no date, but `"1800-05-05"` — rejected by the
explicit formats precisely because of the year gate — is then accepted by
the unguarded `new Date(cleanDate)` fallback, yielding year 1800,
strictly below 1901. -/
theorem parseDate_year_gate_cex :
    parseDate "1800-05-05" = some ⟨1800, 5, 5⟩ ∧ (1800 : Int) < 1901 := by
  exact ⟨by decide, by decide⟩

/-- Claim C3, amended: a date accepted by the four explicit formats always
has year within [1901, 2099]; an input that fails every explicit format is
handed to the engine `Date` parser, which applies no year-range check, and
total parse failure still yields no date. -/
theorem parseDate_year_range (s : String) (d : JSDate)
    (h : parseDate s = some d) :
    (1901 ≤ d.year ∧ d.year ≤ 2099) ∨ jsDateFromString (jsTrimStr s) = some d := by
  unfold parseDate at h
  rcases orElse_eq_some_cases _ _ _ h with h1 | ⟨_, h2⟩
  · have := parseDateFormats_bounds _ _ h1
    left
    omega
  · right
    exact h2

/-- Witness for `parseDate_year_range` at the concrete input
`"02/15/2024"`. -/
theorem parseDate_year_range_witness :
    parseDate "02/15/2024" = some ⟨2024, 2, 15⟩ ∧
    ((1901 ≤ (⟨2024, 2, 15⟩ : JSDate).year ∧ (⟨2024, 2, 15⟩ : JSDate).year ≤ 2099) ∨
      jsDateFromString (jsTrimStr "02/15/2024") = some ⟨2024, 2, 15⟩) :=
  ⟨by decide, parseDate_year_range "02/15/2024" ⟨2024, 2, 15⟩ (by decide)⟩

/-- The end-to-end example row text of the specification. -/
def rfpExampleText : String :=
  "RFP-2024-001 IT Services $75,000 due 02/15/2024 posted 01/15/2024"

/-- Claim C2: the claim says the extracted `externalId` is the first capture
group of the first matching labeled-identifier regex, containing
`"2024-001"` on the example row.  In the source the match is made with the
`g` flag, under which `match()` returns full matches only, and `idMatch[1]`
reads the SECOND full match.  On the example text the `bid|rfp|rfq` pattern
yields the single full match `"RFP-2024-001"`, so `idMatch[1]` is
`undefined` (`none`) and the record's `externalId` contains nothing — the
code contradicts the evident intent (a requisition-number capture). -/
theorem extractExternalId_g_flag_bug :
    (scanGlobal idPat2At rfpExampleText.data).map String.mk = ["RFP-2024-001"] ∧
    extractExternalId rfpExampleText = none := by
  exact ⟨by decide, by decide⟩

/-- Claim C6, counterexample: a visible next-page control whose `href`
navigates to another page but carries a `'#'` fragment is claimed to be
accepted; the source tests `!href.includes('#')`, which rejects any `href`
containing `'#'` anywhere, so this candidate is rejected. -/
theorem acceptNext_fragment_cex :
    acceptNext { visible := true,
                 href := some "/vendor/requisitions/list/?page=2#results" } = false := by
  decide

/-- Claim C6, amended: a candidate next-page control is accepted if and only
if it is visible and its `href` is present, non-empty, and contains no `'#'`
character anywhere — so even an `href` that navigates to another page is
rejected when it carries a fragment. -/
theorem acceptNext_iff (c : NextCandidate) :
    acceptNext c = true ↔
      c.visible = true ∧
        ∃ h, c.href = some h ∧ h ≠ "" ∧ containsCharStr h '#' = false := by
  rcases c with ⟨vis, href⟩
  cases vis <;> rcases href with _ | h <;> simp [acceptNext]

/-- Claim C8, counterexample: a row whose trimmed text is the non-empty
two-word string `"Bid now"`, with no qualifying structural title, is claimed
to receive the first ten whitespace-split tokens (`"Bid now"`) as title; the
source's fallback requires at least three words (`words.length >= 3`), so
the title stays empty and the row receives no title at all. -/
theorem computeTitle_two_words_cex :
    computeTitle (List.replicate 8 none) "Bid now" = "" ∧
    " ".intercalate ((splitWsStr (jsTrimStr "Bid now")).take 10) = "Bid now" := by
  exact ⟨by decide, by decide⟩

/-- Claim C8, amended: when no structural title selector qualifies, the
fallback title is the first ten whitespace-split tokens of the row's full
text joined by single spaces — but only when the trimmed text splits into at
least three tokens; rows with one or two tokens keep an empty title and are
dropped before the relevance gate. -/
theorem computeTitle_fallback (cands : List (Option String)) (text : String)
    (h1 : firstQualifyingTitle cands = none)
    (h2 : 3 ≤ (splitWsStr (jsTrimStr text)).length) :
    computeTitle cands text = " ".intercalate ((splitWsStr (jsTrimStr text)).take 10) := by
  unfold computeTitle
  rw [h1]
  simp [h2]

/-- Witness for `computeTitle_fallback` on a concrete five-word row. -/
theorem computeTitle_fallback_witness :
    firstQualifyingTitle (List.replicate 8 none) = none ∧
    3 ≤ (splitWsStr (jsTrimStr "Maintenance bid for elevator repair")).length ∧
    computeTitle (List.replicate 8 none) "Maintenance bid for elevator repair" =
      " ".intercalate ((splitWsStr (jsTrimStr "Maintenance bid for elevator repair")).take 10) :=
  ⟨by decide, by decide,
    computeTitle_fallback (List.replicate 8 none) "Maintenance bid for elevator repair"
      (by decide) (by decide)⟩

/-! ## Structural lemmas about the extractor -/

/-- The per-bid check of the expiry invariant. -/
def notExpired (now : Int) (b : Bid) : Bool := !bidExpired b now

theorem extract_not_expired (resolve : String → String) (now : Int)
    (el : RowElement) (b : Bid)
    (h : extractBidDataFromElement resolve now el = some b) :
    bidExpired b now = false := by
  simp only [extractBidDataFromElement] at h
  split at h
  · cases h
  split at h
  · cases h
  split at h <;> split at h
  · cases h
  · rename_i hexp
    cases h
    simpa using hexp
  · cases h
  · rename_i hexp
    cases h
    simpa using hexp

theorem extract_title_fields (resolve : String → String) (now : Int)
    (el : RowElement) (b : Bid)
    (h : extractBidDataFromElement resolve now el = some b) :
    b.title = computeTitle el.titleCands el.text ∧
    b.titleHash = generateHash (computeTitle el.titleCands el.text) := by
  simp only [extractBidDataFromElement] at h
  split at h
  · cases h
  split at h
  · cases h
  split at h <;> split at h
  · cases h
  · cases h
    exact ⟨rfl, rfl⟩
  · cases h
  · cases h
    exact ⟨rfl, rfl⟩

theorem foldl_rowStep_all (resolve : String → String) (now : Int)
    (ros : List RowOutcome) :
    ∀ acc : List Bid, acc.all (notExpired now) = true →
      (ros.foldl (rowStep resolve now) acc).all (notExpired now) = true := by
  induction ros with
  | nil => intro acc h; simpa using h
  | cons ro rest ih =>
    intro acc h
    rw [List.foldl_cons]
    apply ih
    cases ro with
    | throwsRow m => simpa [rowStep] using h
    | elem el =>
      simp only [rowStep]
      cases hext : extractBidDataFromElement resolve now el with
      | none => exact h
      | some b =>
        rw [List.all_append]
        simp [h, notExpired, extract_not_expired _ _ _ _ hext]

theorem extractBids_all_not_expired (resolve : String → String) (now : Int)
    (pm : PageModel) :
    (extractBidsFromCurrentPage resolve now pm).all (notExpired now) = true := by
  unfold extractBidsFromCurrentPage
  cases pm.scanFailure with
  | some m => simp
  | none =>
    simp only
    exact foldl_rowStep_all resolve now (selectRows pm) [] (by simp)

/-- Claim C9: the title hash is a deterministic function of the title string
alone — byte-identical titles hash identically, and the hash attached to an
extracted record does not depend on the extraction time (`new Date()`), so
it is stable across runs however often extraction is repeated. -/
theorem generateHash_deterministic :
    (∀ t1 t2 : String, t1 = t2 → generateHash t1 = generateHash t2) ∧
    (∀ (resolve : String → String) (now1 now2 : Int) (el : RowElement)
        (b1 b2 : Bid),
      extractBidDataFromElement resolve now1 el = some b1 →
      extractBidDataFromElement resolve now2 el = some b2 →
      b1.titleHash = b2.titleHash) := by
  constructor
  · intro t1 t2 h
    rw [h]
  · intro resolve now1 now2 el b1 b2 h1 h2
    rw [(extract_title_fields _ _ _ _ h1).2, (extract_title_fields _ _ _ _ h2).2]

/-- Witness for `generateHash_deterministic` at a concrete title. -/
theorem generateHash_deterministic_witness :
    generateHash "Elevator Maintenance Services" =
      generateHash "Elevator Maintenance Services" :=
  generateHash_deterministic.1 "Elevator Maintenance Services"
    "Elevator Maintenance Services" rfl

/-- Claim C1: a row whose resolved `dueDate` is strictly before the clock at
extraction produces no record — every record in the list a page extraction
returns, and every record in the list the whole pagination phase hands back
to the caller, passes the not-expired check, independently of how many rows
were accumulated before it. -/
theorem no_expired_bid_emitted :
    (∀ (resolve : String → String) (now : Int) (pm : PageModel),
      (extractBidsFromCurrentPage resolve now pm).all (notExpired now) = true) ∧
    (∀ (env : PortalEnv) (now : Int),
      ((scrapePagination env now).1).all (notExpired now) = true) := by
  constructor
  · exact extractBids_all_not_expired
  · intro env now
    have key : ∀ (r : Nat), ∀ (cp : Nat) (acc : List Bid) (navs pages : Nat),
        acc.all (notExpired now) = true →
        ((scrapeLoop env now r cp acc navs pages).1).all (notExpired now) = true := by
      intro r
      induction r with
      | zero => intro cp acc navs pages h; simpa [scrapeLoop] using h
      | succ r ih =>
        intro cp acc navs pages h
        have hall : (acc ++ extractBidsFromCurrentPage env.resolve now
            (env.pages cp)).all (notExpired now) = true := by
          rw [List.all_append]
          simp [h, extractBids_all_not_expired]
        simp only [scrapeLoop]
        cases hf : findNextButton (env.nextCandidates cp) with
        | none => simpa using hall
        | some c =>
          cases hn : env.nextNav cp with
          | ok u => exact ih _ _ _ _ hall
          | error e => simpa using hall
    exact key 50 1 [] 0 0 (by simp)

/-- Each surviving `remaining` unit of the loop guard accounts for at most
one page iteration and at most one next-page navigation. -/
theorem scrapeLoop_counts (env : PortalEnv) (now : Int) :
    ∀ (r : Nat) (cp : Nat) (acc : List Bid) (navs pages : Nat),
      (scrapeLoop env now r cp acc navs pages).2.1 ≤ navs + r ∧
      (scrapeLoop env now r cp acc navs pages).2.2 ≤ pages + r := by
  intro r
  induction r with
  | zero => intro cp acc navs pages; simp [scrapeLoop]
  | succ r ih =>
    intro cp acc navs pages
    simp only [scrapeLoop]
    cases hf : findNextButton (env.nextCandidates cp) with
    | none => simp
    | some c =>
      cases hn : env.nextNav cp with
      | ok u =>
        have := ih (cp + 1) (acc ++ extractBidsFromCurrentPage env.resolve now
          (env.pages cp)) (navs + 1) (pages + 1)
        constructor
        · exact le_trans this.1 (by omega)
        · exact le_trans this.2 (by omega)
      | error e => simp

/-- Claim C5: however many next controls the listing presents, the
pagination phase executes at most 50 page iterations and performs at most
50 next-page navigations. -/
theorem pagination_bounded_by_50 (env : PortalEnv) (now : Int) :
    (scrapePagination env now).2.1 ≤ 50 ∧ (scrapePagination env now).2.2 ≤ 50 := by
  have := scrapeLoop_counts env now 50 1 [] 0 0
  unfold scrapePagination
  omega

/-- A page with no rows and no failure. -/
def emptyPage : PageModel := { rowSel := [], scanFailure := none }

/-- An environment in which the initial dashboard navigation throws
(a 30-second `page.goto` timeout) while everything else would succeed. -/
def navFailEnv : PortalEnv :=
  { resolve := id
    gotoDashboard := .error "page.goto: Timeout 30000ms exceeded"
    quotesLinkFound := false
    quotesNav := .ok ()
    gotoSearchPage := .ok ()
    gotoListPage := .ok ()
    searchButtonFound := false
    searchNav := .ok ()
    pages := fun _ => emptyPage
    nextCandidates := fun _ => []
    nextNav := fun _ => .ok () }

/-- Claim C4, counterexample: the claim says the caller receives either a
record list or a precondition/authentication failure only, with no
listing-navigation error escalating; but `scrapeBids`'s own `catch` block
re-throws, so a thrown dashboard navigation (a navigation error of the
listing phase, not a precondition or authentication failure) reaches the
caller as a failure. -/
theorem scrapeBids_nav_error_cex :
    scrapeBids navFailEnv 0 = .error "page.goto: Timeout 30000ms exceeded" := rfl

/-- Claim C4, amended: row-level and page-level extraction errors are caught
inside the extraction loop and never escalate — whenever the pre-loop
listing navigations succeed, the caller receives the accumulated record
list, whatever exceptions individual rows, whole pages, or next-page
navigations throw.  An exception from the pre-loop listing navigation
itself, however, is re-thrown to the caller. -/
theorem scrapeBids_returns_list (env : PortalEnv) (now : Int)
    (h : listingNavOk env) :
    scrapeBids env now = .ok (scrapePagination env now).1 := by
  obtain ⟨h1, h2, h3, h4⟩ := h
  unfold scrapeBids
  rw [h1]
  have hnav : (if env.quotesLinkFound then env.quotesNav
      else match env.gotoSearchPage with
        | .ok _ => Except.ok ()
        | .error _ => env.gotoListPage) = Except.ok () := by
    cases hq : env.quotesLinkFound with
    | true => simpa using h2 hq
    | false =>
      simp only [Bool.false_eq_true, if_false]
      rcases h3 hq with hs | hl
      · rw [hs]
      · cases hsv : env.gotoSearchPage with
        | ok u => rfl
        | error e => exact hl
  rw [hnav]
  have hsearch : (if env.searchButtonFound then env.searchNav else Except.ok ())
      = Except.ok () := by
    cases hsb : env.searchButtonFound with
    | true => simpa using h4 hsb
    | false => rfl
  rw [hsearch]

/-- Witness for `scrapeBids_returns_list`: a concrete environment whose
pre-loop navigations all succeed. -/
def navOkEnv : PortalEnv :=
  { resolve := id
    gotoDashboard := .ok ()
    quotesLinkFound := false
    quotesNav := .ok ()
    gotoSearchPage := .ok ()
    gotoListPage := .ok ()
    searchButtonFound := false
    searchNav := .ok ()
    pages := fun _ => emptyPage
    nextCandidates := fun _ => []
    nextNav := fun _ => .ok () }

theorem scrapeBids_returns_list_witness :
    listingNavOk navOkEnv ∧
    scrapeBids navOkEnv 7 = .ok (scrapePagination navOkEnv 7).1 :=
  have hok : listingNavOk navOkEnv :=
    ⟨rfl, fun _ => rfl, fun _ => Or.inl rfl, fun _ => rfl⟩
  ⟨hok, scrapeBids_returns_list navOkEnv 7 hok⟩

/-- Claim C10: a row whose text yields exactly one successfully parsed date
gets that date as `postedDate` while `dueDate` stays null (`dueDate` is set
only when more than one parsed date remains), so such a row can never be
removed by the expiry filter — whatever the clock says, in particular when
its single date lies strictly in the past. -/
theorem single_date_becomes_posted (resolve : String → String) (now : Int)
    (el : RowElement) (d : JSDate)
    (h1 : jsTrimStr el.text ≠ "")
    (h2 : computeTitle el.titleCands el.text ≠ "")
    (h3 : isBidRelated (computeTitle el.titleCands el.text) = true)
    (h4 : parsedDatesOfText el.text = [d]) :
    (extractBidDataFromElement resolve now el).map
      (fun b => (b.postedDate, b.dueDate)) = some (some d, none) := by
  simp [extractBidDataFromElement, h1, h2, h3, h4, bidExpired]

/-- Witness for `single_date_becomes_posted`: a bid-related row whose only
date, January 15 2020, is strictly before the clock value (June 2024), yet
the row is emitted with that date as `postedDate` and no `dueDate`. -/
def singleDateRow : RowElement :=
  { text := "Maintenance services bid due 01/15/2020"
    titleCands := List.replicate 8 none
    linkCands := List.replicate 5 none
    docCands := [] }

theorem single_date_becomes_posted_witness :
    parsedDatesOfText singleDateRow.text = [⟨2020, 1, 15⟩] ∧
    (⟨2020, 1, 15⟩ : JSDate).toMs < 1717200000000 ∧
    (extractBidDataFromElement id 1717200000000 singleDateRow).map
      (fun b => (b.postedDate, b.dueDate)) = some (some ⟨2020, 1, 15⟩, none) :=
  ⟨by decide, by decide,
    single_date_becomes_posted id 1717200000000 singleDateRow ⟨2020, 1, 15⟩
      (by decide) (by decide) (by decide) (by decide)⟩
